import Mathlib

/-!
Shallow embedding of the imtool transform pipeline
(src/src/ImTool.ts, src/src/utils/canvas.ts).

A raster surface is modelled as a record of natural-number dimensions, a
total pixel map over integer coordinates, and a taint flag.  The numbers
that reach the dimension check of emptyCanvas are modelled by JSNum, which
carries the IEEE special values relevant to that check (a comparison with
NaN is false in JS, so NaN slips past the check); all arithmetic the
library performs on its own happens on finite values and is modelled over
the rationals, except the trigonometric dimension computation of rotate,
which is modelled over the reals.  Assigning a canvas dimension applies the
WebIDL unsigned long conversion: NaN and the infinities become 0, finite
values are truncated toward zero and taken modulo 2 ^ 32.

Platform resampling (scaled or rotated draws) is implementation defined; it
is modelled as nearest-neighbour sampling and no theorem depends on the
sampled values.  Partial alpha blending is likewise not modelled: a source
pixel either covers the destination pixel or, when fully transparent,
leaves it visible.
-/

/-- An RGBA pixel value.  The cssColor case represents the platform parsed
value of a CSS color string (color parsing is a platform collaborator). -/
inductive Pixel where
  | rgba (r g b a : ℕ)
  | cssColor (s : String)
deriving DecidableEq

/-- The fully transparent blank value freshly allocated canvases hold. -/
def transparentPixel : Pixel := .rgba 0 0 0 0

/-- Source-over compositing at full opacity: a fully transparent source
pixel leaves the destination visible, any other source pixel covers it. -/
def composite (s d : Pixel) : Pixel := if s = transparentPixel then d else s

/-- A drawing surface: an HTMLCanvasElement together with its 2d context.
The pixel map is total over integer coordinates; only the rectangle
[0, width) x [0, height) is observable. -/
structure Canvas where
  width : ℕ
  height : ℕ
  pix : ℤ → ℤ → Pixel
  tainted : Bool

/-- A JavaScript number as it reaches the dimension check of emptyCanvas:
either a finite value (modelled as a rational) or one of the IEEE special
values.  Rounding of finite doubles is not modelled. -/
inductive JSNum where
  | fin (q : ℚ)
  | nan
  | posInf
  | negInf
deriving DecidableEq

/-- The JS comparison x <= 0.  Comparisons with NaN are false, so NaN and
positive infinity pass the emptyCanvas validation. -/
def JSNum.le0 : JSNum → Bool
  | .fin q => q ≤ 0
  | .nan => false
  | .posInf => false
  | .negInf => true

/-- WebIDL unsigned long conversion applied when a number is assigned to
canvas.width or canvas.height: NaN and the infinities convert to 0, finite
values are truncated toward zero and reduced modulo 2 ^ 32. -/
def JSNum.toDim : JSNum → ℕ
  | .fin q => (((if 0 ≤ q then (⌊q⌋ : ℤ) else ⌈q⌉)) % (2 ^ 32 : ℤ)).toNat
  | _ => 0

/-- The error identities of the library, one per throw site. -/
inductive Err where
  | invalidDimension
  | imageNotLoaded
  | videoNotLoaded
  | taintedCanvas
  | blobUnavailable
  | securityError
  | loadFailed
deriving DecidableEq

/-- The message carried by each error.  The first five strings appear
verbatim in the source; securityError is thrown by the platform when a
tainted canvas is read back or encoded, and loadFailed stands for the
platform error event of a failed image load. -/
def Err.message : Err → String
  | .invalidDimension => "All arguments must be positive."
  | .imageNotLoaded => "Image is not fully loaded."
  | .videoNotLoaded => "Video stream is not fully loaded."
  | .taintedCanvas => "Canvas is tainted. Images must be from the same origin or current host must be specified in Access-Control-Allow-Origin."
  | .blobUnavailable => "Blob unavailable."
  | .securityError => "SecurityError"
  | .loadFailed => "Image load error event."

/-- utils/canvas.ts emptyCanvas: rejects non positive dimensions before
allocating, then allocates a blank untainted canvas whose dimensions are
the WebIDL converted arguments.  Context initialization failure is a
platform resource failure and is not modelled. -/
def emptyCanvas (width height : JSNum) : Except Err Canvas :=
  if width.le0 || height.le0 then
    .error .invalidDimension
  else
    .ok { width := width.toDim
          height := height.toDim
          pix := fun _ _ => transparentPixel
          tainted := false }

/-- utils/canvas.ts isTainted: the 1 x 1 getImageData probe at the origin
throws exactly when the canvas is tainted. -/
def isTainted (c : Canvas) : Bool := c.tainted

/-- ctx.drawImage(src, dx, dy, src.width, src.height): an unscaled draw of
the whole source at integer offset (dx, dy).  Destination pixels covered by
the source rectangle receive the composite of the source pixel over the
previous content; drawing a tainted source taints the destination. -/
def drawUnscaled (dest src : Canvas) (dx dy : ℤ) : Canvas :=
  { dest with
    pix := fun i j =>
      if 0 ≤ i - dx ∧ i - dx < (src.width : ℤ) ∧ 0 ≤ j - dy ∧ j - dy < (src.height : ℤ) then
        composite (src.pix (i - dx) (j - dy)) (dest.pix i j)
      else dest.pix i j
    tainted := dest.tainted || src.tainted }

/-- ctx.drawImage(src, x, y, w, h) with scaling: the source is stretched to
the target rectangle.  The platform resampling filter is implementation
defined; it is modelled as nearest-neighbour sampling and no theorem
depends on the sampled values. -/
def drawScaled (dest src : Canvas) (x y w h : ℚ) : Canvas :=
  { dest with
    pix := fun i j =>
      if x ≤ (i : ℚ) ∧ (i : ℚ) < x + w ∧ y ≤ (j : ℚ) ∧ (j : ℚ) < y + h then
        composite (src.pix ⌊((i : ℚ) - x) * src.width / w⌋ ⌊((j : ℚ) - y) * src.height / h⌋)
          (dest.pix i j)
      else dest.pix i j
    tainted := dest.tainted || src.tainted }

/-- The mirrored draw performed by utils/canvas.ts flip: the context is
translated and scaled by -1 on one axis, then the source is drawn unscaled,
which maps destination pixel (i, j) to source pixel (width - 1 - i, j) for
a horizontal flip and (i, height - 1 - j) for a vertical one. -/
def drawFlipped (dest src : Canvas) (vertical : Bool) : Canvas :=
  { dest with
    pix := fun i j =>
      if 0 ≤ i ∧ i < (src.width : ℤ) ∧ 0 ≤ j ∧ j < (src.height : ℤ) then
        composite
          (if vertical then src.pix i ((src.height : ℤ) - 1 - j)
           else src.pix ((src.width : ℤ) - 1 - i) j)
          (dest.pix i j)
      else dest.pix i j
    tainted := dest.tainted || src.tainted }

/-- utils/canvas.ts flip: allocates a canvas of the source dimensions and
draws the source mirrored across the chosen axis. -/
def Canvas.flip (input : Canvas) (vertical : Bool) : Except Err Canvas :=
  match emptyCanvas (.fin input.width) (.fin input.height) with
  | .error e => .error e
  | .ok c => .ok (drawFlipped c input vertical)

/-- The local values computed by utils/canvas.ts thumbnail before the
allocation and draw: scale factor, draw offsets, drawn image size and
canvas size. -/
structure ThumbParams where
  scale : ℚ
  x : ℚ
  y : ℚ
  imageWidth : ℚ
  imageHeight : ℚ
  canvasWidth : ℚ
  canvasHeight : ℚ
deriving DecidableEq

/-- The parameter computation of utils/canvas.ts thumbnail, translated
branch for branch from the source. -/
def thumbParams (input : Canvas) (maxSize : ℚ) (cover : Bool) : ThumbParams :=
  if cover then
    if input.width > input.height then
      let scale := maxSize / input.height
      { scale := scale
        x := (-1 * ((input.width : ℚ) * scale - maxSize)) / 2
        y := 0
        imageWidth := (input.width : ℚ) * scale
        imageHeight := maxSize
        canvasWidth := maxSize
        canvasHeight := maxSize }
    else
      let scale := maxSize / input.width
      { scale := scale
        x := 0
        y := (-1 * ((input.height : ℚ) * scale - maxSize)) / 2
        imageWidth := maxSize
        imageHeight := (input.height : ℚ) * scale
        canvasWidth := maxSize
        canvasHeight := maxSize }
  else
    let scale := min (min (maxSize / input.width) (maxSize / input.height)) 1
    { scale := scale
      x := 0
      y := 0
      imageWidth := (input.width : ℚ) * scale
      imageHeight := (input.height : ℚ) * scale
      canvasWidth := (input.width : ℚ) * scale
      canvasHeight := (input.height : ℚ) * scale }

/-- utils/canvas.ts thumbnail: computes the parameters, allocates the
target canvas and draws the source scaled into it. -/
def Canvas.thumbnail (input : Canvas) (maxSize : ℚ) (cover : Bool) : Except Err Canvas :=
  let p := thumbParams input maxSize cover
  match emptyCanvas (.fin p.canvasWidth) (.fin p.canvasHeight) with
  | .error e => .error e
  | .ok c => .ok (drawScaled c input p.x p.y p.imageWidth p.imageHeight)

/-- The runtime type of a value of the ImageLike union declared in
src/index.ts: HTMLCanvasElement, HTMLImageElement, HTMLVideoElement,
ImageBitmap or OffscreenCanvas.  fromImageLike discriminates members with
instanceof checks, embedded here as equality tests on this tag. -/
inductive ImageKind where
  | canvasEl
  | image
  | video
  | bitmap
  | offscreenCanvas
deriving DecidableEq

/-- A value of the ImageLike union of src/index.ts, as a record of its
runtime type tag and the DOM properties fromImageLike reads: the per kind
size fields (width/height, naturalWidth/naturalHeight,
videoWidth/videoHeight), the readiness flags (complete for images,
readyState and ended for videos), together with its pixel content and
whether that content is cross origin tainted.  Fields that do not exist on
a given member (for example naturalWidth on a canvas) are never read by
the code on that member, so carrying them on every record is harmless. -/
structure ImageLike where
  kind : ImageKind
  width : ℕ
  height : ℕ
  naturalWidth : ℕ
  naturalHeight : ℕ
  videoWidth : ℕ
  videoHeight : ℕ
  complete : Bool
  readyState : ℕ
  ended : Bool
  tainted : Bool
  pix : ℤ → ℤ → Pixel

/-- The size fromImageLike draws at: videoWidth/videoHeight for videos,
naturalWidth/naturalHeight for images, width/height otherwise. -/
def ImageLike.drawSize (im : ImageLike) : ℕ × ℕ :=
  match im.kind with
  | .video => (im.videoWidth, im.videoHeight)
  | .image => (im.naturalWidth, im.naturalHeight)
  | _ => (im.width, im.height)

/-- An ImageLike viewed as a drawable surface of its draw size. -/
def ImageLike.asCanvas (im : ImageLike) : Canvas :=
  { width := im.drawSize.1
    height := im.drawSize.2
    pix := im.pix
    tainted := im.tainted }

/-- utils/canvas.ts fromImageLike: rejects sources that report themselves
not fully loaded, allocates a canvas of the natural size, draws the source
into it and rejects it if the readback probe finds the result tainted. -/
def fromImageLike (im : ImageLike) : Except Err Canvas :=
  if im.kind = .image ∧ im.complete = false ∧ im.naturalWidth = 0 then
    .error .imageNotLoaded
  else if im.kind = .video ∧ (im.readyState < 2 ∨ im.ended = true) then
    .error .videoNotLoaded
  else
    match emptyCanvas (.fin im.drawSize.1) (.fin im.drawSize.2) with
    | .error e => .error e
    | .ok c =>
      if isTainted (drawUnscaled c im.asCanvas 0 0) then .error .taintedCanvas
      else .ok (drawUnscaled c im.asCanvas 0 0)

/-- The pipeline state of src/ImTool.ts: the held canvas, the output
encoding preferences, and the dimensions captured at construction. -/
structure ImTool where
  canvas : Canvas
  outputType : String
  outputQuality : ℚ
  originalWidth : ℕ
  originalHeight : ℕ

/-- The ImTool constructor: builds the canvas through fromImageLike,
snapshots its dimensions as originalWidth/originalHeight and sets the
default output type image/jpeg and quality 0.7.  A validation failure
propagates and no pipeline object is produced. -/
def ImTool.create (im : ImageLike) : Except Err ImTool :=
  match fromImageLike im with
  | .error e => .error e
  | .ok c =>
    .ok { canvas := c
          outputType := "image/jpeg"
          outputQuality := 7 / 10
          originalWidth := c.width
          originalHeight := c.height }

/-- ImTool.crop: allocates a (width, height) canvas, draws the held canvas
unscaled at offset (-x, -y) and replaces the held canvas.  The offsets are
modelled as integers; fractional offsets would invoke platform resampling,
outside this model.  On failure the held canvas is not replaced. -/
def ImTool.crop (t : ImTool) (x y : ℤ) (width height : JSNum) : Except Err ImTool :=
  match emptyCanvas width height with
  | .error e => .error e
  | .ok c => .ok { t with canvas := drawUnscaled c t.canvas (-x) (-y) }

/-- ImTool.scale: allocates a (width, height) canvas and draws the held
canvas stretched to fill it.  A draw whose target rectangle involves a non
finite value is a platform no-op. -/
def ImTool.scale (t : ImTool) (width height : JSNum) : Except Err ImTool :=
  match emptyCanvas width height with
  | .error e => .error e
  | .ok c =>
    match width, height with
    | .fin qw, .fin qh => .ok { t with canvas := drawScaled c t.canvas 0 0 qw qh }
    | _, _ => .ok { t with canvas := c }

/-- ImTool.flip: replaces the held canvas with the flipped one. -/
def ImTool.flip (t : ImTool) (vertical : Bool) : Except Err ImTool :=
  match t.canvas.flip vertical with
  | .error e => .error e
  | .ok c => .ok { t with canvas := c }

/-- ImTool.flipH. -/
def ImTool.flipH (t : ImTool) : Except Err ImTool := t.flip false

/-- ImTool.flipV. -/
def ImTool.flipV (t : ImTool) : Except Err ImTool := t.flip true

/-- ImTool.thumbnail: replaces the held canvas with the thumbnail.  The
maximum size is a finite number here; the claims quantify over finite
positive values only. -/
def ImTool.thumbnail (t : ImTool) (maxSize : ℚ) (cover : Bool) : Except Err ImTool :=
  match t.canvas.thumbnail maxSize cover with
  | .error e => .error e
  | .ok c => .ok { t with canvas := c }

/-- ctx.fillStyle := color followed by ctx.fillRect(0, 0, w, h): paints the
rectangle with the platform parsed color. -/
def fillRect (c : Canvas) (color : String) (w h : ℕ) : Canvas :=
  { c with
    pix := fun i j =>
      if 0 ≤ i ∧ i < (w : ℤ) ∧ 0 ≤ j ∧ j < (h : ℤ) then Pixel.cssColor color
      else c.pix i j }

/-- ImTool.background: allocates a canvas of the held dimensions, fills it
with the parsed color and draws the held canvas on top. -/
def ImTool.background (t : ImTool) (color : String) : Except Err ImTool :=
  match emptyCanvas (.fin t.canvas.width) (.fin t.canvas.height) with
  | .error e => .error e
  | .ok c =>
    .ok { t with canvas :=
      drawUnscaled (fillRect c color t.canvas.width t.canvas.height) t.canvas 0 0 }

/-- ImTool.type: sets the output type; no other field changes. -/
def ImTool.type (t : ImTool) (ty : String) : ImTool := { t with outputType := ty }

/-- ImTool.quality: sets the output quality; no other field changes. -/
def ImTool.quality (t : ImTool) (q : ℚ) : ImTool := { t with outputQuality := q }

/-- JS truncation toward zero of a real number, as used by the remainder
operator. -/
noncomputable def jsTrunc (x : ℝ) : ℤ := if 0 ≤ x then ⌊x⌋ else ⌈x⌉

/-- The JS remainder operator x % y for finite operands: the result has the
sign of the dividend. -/
noncomputable def jsMod (x y : ℝ) : ℝ := x - y * (jsTrunc (x / y) : ℝ)

/-- The angle folding performed by utils/canvas.ts rotate on
rad % (2 * pi), translated branch for branch from the source. -/
noncomputable def foldAngle (angle : ℝ) : ℝ :=
  if angle > Real.pi / 2 then
    if angle ≤ Real.pi then Real.pi - angle
    else if angle ≤ Real.pi * 3 / 2 then angle - Real.pi
    else Real.pi * 2 - angle
  else angle

/-- The real-number instantiation of emptyCanvas used by rotate, whose
dimension computation is trigonometric.  The special values of JSNum cannot
arise here. -/
noncomputable def emptyCanvasR (width height : ℝ) : Except Err Canvas :=
  if width ≤ 0 ∨ height ≤ 0 then
    .error .invalidDimension
  else
    .ok { width := (⌊width⌋ % (2 ^ 32 : ℤ)).toNat
          height := (⌊height⌋ % (2 ^ 32 : ℤ)).toNat
          pix := fun _ _ => transparentPixel
          tainted := false }

/-- The rotated draw of utils/canvas.ts rotate: the context is translated
to the center of the new canvas, rotated by the original angle, and the
source is drawn centered.  Only the cosine and sine of the angle enter the
transform.  Sampling is modelled as nearest neighbour; no theorem depends
on the sampled values. -/
noncomputable def drawRotated (dest src : Canvas) (c s : ℝ) : Canvas :=
  { dest with
    pix := fun i j =>
      let px : ℝ := (i : ℝ) + 1 / 2 - (dest.width : ℝ) / 2
      let py : ℝ := (j : ℝ) + 1 / 2 - (dest.height : ℝ) / 2
      let u : ℝ := c * px + s * py + (src.width : ℝ) / 2
      let v : ℝ := -s * px + c * py + (src.height : ℝ) / 2
      if 0 ≤ ⌊u⌋ ∧ ⌊u⌋ < (src.width : ℤ) ∧ 0 ≤ ⌊v⌋ ∧ ⌊v⌋ < (src.height : ℤ) then
        composite (src.pix ⌊u⌋ ⌊v⌋) (dest.pix i j)
      else dest.pix i j
    tainted := dest.tainted || src.tainted }

/-- utils/canvas.ts rotate: folds the angle taken modulo 2 pi, allocates
the canvas at the computed bounding box dimensions
width * cos(angle) + height * cos(pi / 2 - angle) by
width * sin(angle) + height * sin(pi / 2 - angle), and draws the source
rotated by the original angle about the new center. -/
noncomputable def Canvas.rotate (input : Canvas) (rad : ℝ) : Except Err Canvas :=
  match emptyCanvasR
      ((input.width : ℝ) * Real.cos (foldAngle (jsMod rad (Real.pi * 2))) +
        (input.height : ℝ) * Real.cos (Real.pi / 2 - foldAngle (jsMod rad (Real.pi * 2))))
      ((input.width : ℝ) * Real.sin (foldAngle (jsMod rad (Real.pi * 2))) +
        (input.height : ℝ) * Real.sin (Real.pi / 2 - foldAngle (jsMod rad (Real.pi * 2)))) with
  | .error e => .error e
  | .ok c => .ok (drawRotated c input (Real.cos rad) (Real.sin rad))

/-- ImTool.rotate: replaces the held canvas with the rotated one. -/
noncomputable def ImTool.rotate (t : ImTool) (rad : ℝ) : Except Err ImTool :=
  match t.canvas.rotate rad with
  | .error e => .error e
  | .ok c => .ok { t with canvas := c }

/-- ImTool.rotateDeg: pure unit conversion wrapping rotate. -/
noncomputable def ImTool.rotateDeg (t : ImTool) (degrees : ℝ) : Except Err ImTool :=
  t.rotate (degrees * Real.pi / 180)

/-- An encoded binary blob produced by the platform encoder. -/
structure Blob where
  bytes : List ℕ

/-- A named file wrapping a blob. -/
structure FileRep where
  blob : Blob
  name : String

/-- The platform collaborators consumed by the export operations: the
canvas.toBlob encoder, which may yield no blob, the canvas.toDataURL
encoder, and the image decoder behind loadImage, which may fail. -/
structure Host where
  encodeBlob : Canvas → String → ℚ → Option Blob
  encodeDataURL : Canvas → String → ℚ → String
  loadImage : String → Option ImageLike

/-- ImTool.toBlob: canvas.toBlob throws synchronously on a tainted canvas
(rejecting the promise with that platform error); otherwise the encoder
callback receives either null, rejected as the Blob unavailable error, or
the encoded blob, which resolves the promise.  The method writes no field,
so the state component is returned unchanged. -/
def ImTool.toBlob (t : ImTool) (host : Host) : Except Err Blob × ImTool :=
  (if t.canvas.tainted then .error .securityError
   else
     match host.encodeBlob t.canvas t.outputType t.outputQuality with
     | none => .error .blobUnavailable
     | some b => .ok b,
   t)

/-- ImTool.toDataURL: canvas.toDataURL throws on a tainted canvas,
rejecting the promise; otherwise the encoded data URL resolves it.  No
field is written. -/
def ImTool.toDataURL (t : ImTool) (host : Host) : Except Err String × ImTool :=
  (if t.canvas.tainted then .error .securityError
   else .ok (host.encodeDataURL t.canvas t.outputType t.outputQuality),
   t)

/-- ImTool.toCanvas: allocates a canvas of the held dimensions and draws
the held canvas into it, resolving with the copy.  A throw inside the
promise executor rejects the promise.  No field is written. -/
def ImTool.toCanvas (t : ImTool) : Except Err Canvas × ImTool :=
  (match emptyCanvas (.fin t.canvas.width) (.fin t.canvas.height) with
   | .error e => .error e
   | .ok c => .ok (drawUnscaled c t.canvas 0 0),
   t)

/-- ImTool.toImage: exports a data URL and loads it back through the
platform image decoder.  No field is written. -/
def ImTool.toImage (t : ImTool) (host : Host) : Except Err ImageLike × ImTool :=
  (match (t.toDataURL host).1 with
   | .error e => .error e
   | .ok url =>
     match host.loadImage url with
     | none => .error .loadFailed
     | some im => .ok im,
   t)

/-- ImTool.toFile: wraps the exported blob in a named file.  No field is
written. -/
def ImTool.toFile (t : ImTool) (host : Host) (name : String) : Except Err FileRep × ImTool :=
  (match (t.toBlob host).1 with
   | .error e => .error e
   | .ok b => .ok { blob := b, name := name },
   t)

/-- ImTool.toDownload: exports a data URL and triggers a DOM download; the
DOM side effects are outside the model.  No field is written. -/
def ImTool.toDownload (t : ImTool) (host : Host) (name : String) : Except Err Unit × ImTool :=
  (match (t.toDataURL host).1 with
   | .error e => .error e
   | .ok _ => .ok (),
   t)

/-- One chainable mutator call of the pipeline API. -/
inductive Op where
  | crop (x y : ℤ) (width height : JSNum)
  | scale (width height : JSNum)
  | flip (vertical : Bool)
  | thumbnail (maxSize : ℚ) (cover : Bool)
  | rotate (rad : ℝ)
  | background (color : String)

/-- Dispatches one mutator call to the corresponding method. -/
noncomputable def applyOp (t : ImTool) : Op → Except Err ImTool
  | .crop x y w h => t.crop x y w h
  | .scale w h => t.scale w h
  | .flip v => t.flip v
  | .thumbnail m c => t.thumbnail m c
  | .rotate rad => t.rotate rad
  | .background color => t.background color

/-- Runs a chain of mutator calls on one pipeline object.  A throwing call
leaves the held state unchanged (the method throws before assigning any
field), so the object keeps its last good state. -/
noncomputable def runChain (t : ImTool) (ops : List Op) : ImTool :=
  ops.foldl (fun s op => match applyOp s op with | .ok s2 => s2 | .error _ => s) t

/-- Well-formedness of a held canvas: positive dimensions in the unsigned
long range.  Every canvas produced by emptyCanvas with positive finite
arguments below 2 ^ 32 satisfies this. -/
def wfCanvas (c : Canvas) : Prop :=
  0 < c.width ∧ c.width < 2 ^ 32 ∧ 0 < c.height ∧ c.height < 2 ^ 32

instance (c : Canvas) : Decidable (wfCanvas c) := by
  unfold wfCanvas; infer_instance

/-- Is an Except result a success. -/
def exOk {α : Type} : Except Err α → Bool
  | .ok _ => true
  | .error _ => false

/-- The width of the canvas held after a pipeline call, 0 on failure. -/
def resWidth : Except Err ImTool → ℕ
  | .ok t => t.canvas.width
  | .error _ => 0

/-- The height of the canvas held after a pipeline call, 0 on failure. -/
def resHeight : Except Err ImTool → ℕ
  | .ok t => t.canvas.height
  | .error _ => 0

/-- A pipeline object holding a given canvas, with the default output
preferences and the original dimensions snapshotted from it, as the
constructor produces. -/
def tool (c : Canvas) : ImTool :=
  { canvas := c
    outputType := "image/jpeg"
    outputQuality := 7 / 10
    originalWidth := c.width
    originalHeight := c.height }

/-- A pixel map that encodes its own coordinates, so that displaced pixels
are distinguishable. -/
def coordPix (i j : ℤ) : Pixel := .rgba i.toNat j.toNat 0 255

/-- A 2 x 2 untainted source surface with distinguishable pixels. -/
def srcCanvas2 : Canvas :=
  { width := 2, height := 2, pix := coordPix, tainted := false }

/-- A 200 x 300 untainted blank surface. -/
def canvas200x300 : Canvas :=
  { width := 200, height := 300, pix := fun _ _ => transparentPixel, tainted := false }

/-- A 1 x 1 untainted blank surface. -/
def canvas1x1 : Canvas :=
  { width := 1, height := 1, pix := fun _ _ => transparentPixel, tainted := false }

/-- A 100 x 100 untainted blank surface. -/
def canvas100 : Canvas :=
  { width := 100, height := 100, pix := fun _ _ => transparentPixel, tainted := false }

/-- An image source that reports itself not yet loaded: complete is false
and naturalWidth is 0. -/
def imNotLoaded : ImageLike :=
  { kind := .image, width := 0, height := 0, naturalWidth := 0, naturalHeight := 0
    videoWidth := 0, videoHeight := 0, complete := false, readyState := 0
    ended := false, tainted := false, pix := fun _ _ => transparentPixel }

/-- A ready 4 x 4 drawing-surface source whose content is cross origin
tainted, so the readback probe fails. -/
def imTainted : ImageLike :=
  { kind := .canvasEl, width := 4, height := 4, naturalWidth := 4, naturalHeight := 4
    videoWidth := 4, videoHeight := 4, complete := true, readyState := 4
    ended := false, tainted := true, pix := fun _ _ => transparentPixel }

/-- A ready untainted 200 x 400 drawing-surface source. -/
def imPlain : ImageLike :=
  { kind := .canvasEl, width := 200, height := 400, naturalWidth := 200, naturalHeight := 400
    videoWidth := 200, videoHeight := 400, complete := true, readyState := 4
    ended := false, tainted := false, pix := fun _ _ => transparentPixel }

/-- The pipeline object that construction from imPlain yields. -/
def toolPlain : ImTool :=
  tool (drawUnscaled
    { width := 200, height := 400, pix := fun _ _ => transparentPixel, tainted := false }
    imPlain.asCanvas 0 0)

/-- A platform whose blob encoder yields no blob. -/
def hostNone : Host :=
  { encodeBlob := fun _ _ _ => none
    encodeDataURL := fun _ _ _ => ""
    loadImage := fun _ => none }

/-- A platform whose blob encoder always yields an empty blob. -/
def hostSome : Host :=
  { encodeBlob := fun _ _ _ => some { bytes := [] }
    encodeDataURL := fun _ _ _ => ""
    loadImage := fun _ => none }

theorem composite_transparentPixel (p : Pixel) : composite p transparentPixel = p := by
  by_cases h : p = transparentPixel <;> simp [composite, h]

theorem toDim_natCast (n : ℕ) : (JSNum.fin (n : ℚ)).toDim = n % 2 ^ 32 := by
  have h0 : (0 : ℚ) ≤ (n : ℚ) := Nat.cast_nonneg n
  simp only [JSNum.toDim, if_pos h0, Int.floor_natCast]
  omega

theorem toDim_natCast_lt (n : ℕ) (h : n < 2 ^ 32) : (JSNum.fin (n : ℚ)).toDim = n := by
  rw [toDim_natCast, Nat.mod_eq_of_lt h]

theorem emptyCanvas_err (w h : JSNum) (hc : (w.le0 || h.le0) = true) :
    emptyCanvas w h = .error .invalidDimension := by
  simp [emptyCanvas, hc]

theorem fin_le0_false (q : ℚ) (hq : 0 < q) : (JSNum.fin q).le0 = false := by
  simp [JSNum.le0, not_le.mpr hq]

theorem emptyCanvas_pos (qw qh : ℚ) (hw : 0 < qw) (hh : 0 < qh) :
    emptyCanvas (.fin qw) (.fin qh) =
      .ok { width := (JSNum.fin qw).toDim, height := (JSNum.fin qh).toDim
            pix := fun _ _ => transparentPixel, tainted := false } := by
  simp [emptyCanvas, fin_le0_false _ hw, fin_le0_false _ hh]

theorem emptyCanvas_nat (w h : ℕ) (hw : 0 < w) (hw32 : w < 2 ^ 32)
    (hh : 0 < h) (hh32 : h < 2 ^ 32) :
    emptyCanvas (.fin w) (.fin h) =
      .ok { width := w, height := h
            pix := fun _ _ => transparentPixel, tainted := false } := by
  rw [emptyCanvas_pos _ _ (by exact_mod_cast hw) (by exact_mod_cast hh),
    toDim_natCast_lt _ hw32, toDim_natCast_lt _ hh32]

/-- C5 counterexample: a NaN crop width is not rejected.  The check
width <= 0 is false for NaN, so instead of failing with InvalidDimension
the call succeeds and installs a canvas whose width converted to 0. -/
theorem crop_nan_not_rejected :
    exOk (ImTool.crop (tool canvas100) 0 0 .nan (.fin 50)) = true ∧
    resWidth (ImTool.crop (tool canvas100) 0 0 .nan (.fin 50)) = 0 ∧
    exOk (emptyCanvas .nan (.fin 50)) = true := by
  decide

/-- C5 (amended): every operation that accepts a width or height
(emptyCanvas, crop, scale) fails with InvalidDimension, before any
allocation, when the argument is non-positive (finite and at most zero, or
negative infinity); a failing mutator leaves the pipeline state unchanged.
Non-finite arguments are not rejected: NaN and positive infinity pass the
check and convert to a zero-sized dimension (see the counterexample). -/
theorem invalid_dimension_rejection (t : ImTool) (x y : ℤ) (w h : JSNum)
    (hc : (w.le0 || h.le0) = true) :
    ImTool.crop t x y w h = .error .invalidDimension ∧
    ImTool.scale t w h = .error .invalidDimension ∧
    emptyCanvas w h = .error .invalidDimension ∧
    runChain t [Op.crop x y w h] = t ∧
    runChain t [Op.scale w h] = t := by
  have he : emptyCanvas w h = .error .invalidDimension := emptyCanvas_err w h hc
  refine ⟨?_, ?_, he, ?_, ?_⟩ <;>
    simp [ImTool.crop, ImTool.scale, runChain, applyOp, he]

theorem invalid_dimension_rejection_witness :
    ((JSNum.fin 0).le0 || (JSNum.fin 50).le0) = true ∧
    ImTool.crop (tool canvas100) 0 0 (.fin 0) (.fin 50) = .error .invalidDimension ∧
    runChain (tool canvas100) [Op.crop 0 0 (.fin 0) (.fin 50)] = tool canvas100 := by
  have h := invalid_dimension_rejection (tool canvas100) 0 0 (.fin 0) (.fin 50) (by decide)
  exact ⟨by decide, h.1, h.2.2.2.1⟩

/-- C9: the export operations are read-only with respect to pipeline
state: the state component of every export is the unchanged pipeline, so
the held surface, its dimensions, the output type and the output quality
are all preserved and the pipeline remains usable for further chains. -/
theorem exports_read_only (t : ImTool) (host : Host) (name : String) :
    (t.toBlob host).2 = t ∧ (t.toDataURL host).2 = t ∧ t.toCanvas.2 = t ∧
    (t.toImage host).2 = t ∧ (t.toFile host name).2 = t ∧
    (t.toDownload host name).2 = t ∧
    ∀ ops : List Op, runChain (t.toCanvas).2 ops = runChain t ops :=
  ⟨rfl, rfl, rfl, rfl, rfl, rfl, fun _ => rfl⟩

/-- C10: toBlob never resolves with a null or absent value: on a tainted
canvas the platform encoder throws and the promise rejects with that
error; when the encoder yields no blob the promise rejects with the Blob
unavailable error; otherwise it resolves with the actual blob. -/
theorem toBlob_never_null (t : ImTool) (host : Host) :
    (t.canvas.tainted = true → (t.toBlob host).1 = .error .securityError) ∧
    (t.canvas.tainted = false →
      host.encodeBlob t.canvas t.outputType t.outputQuality = none →
      (t.toBlob host).1 = .error .blobUnavailable ∧
        Err.message .blobUnavailable = "Blob unavailable.") ∧
    ∀ b, t.canvas.tainted = false →
      host.encodeBlob t.canvas t.outputType t.outputQuality = some b →
      (t.toBlob host).1 = .ok b := by
  refine ⟨fun ht => ?_, fun ht hn => ⟨?_, rfl⟩, fun b ht hs => ?_⟩ <;>
    simp [ImTool.toBlob, ht, *]

theorem toBlob_never_null_witness :
    (tool canvas100).canvas.tainted = false ∧
    hostNone.encodeBlob (tool canvas100).canvas (tool canvas100).outputType
      (tool canvas100).outputQuality = none ∧
    ((tool canvas100).toBlob hostNone).1 = .error .blobUnavailable ∧
    ((tool canvas100).toBlob hostSome).1 = .ok { bytes := [] } :=
  ⟨rfl, rfl, ((toBlob_never_null (tool canvas100) hostNone).2.1 rfl rfl).1,
   (toBlob_never_null (tool canvas100) hostSome).2.2 { bytes := [] } rfl rfl⟩

/-- C1: for positive integer dimensions in the representable range and any
integer offsets, crop yields a surface of exactly the requested size whose
pixel (i, j) is the source pixel (x + i, y + j) when that lies inside the
source and the blank transparent value otherwise; in particular pixel
(0, 0) corresponds to source pixel (x, y). -/
theorem crop_rect_spec (t : ImTool) (x y : ℤ) (w h : ℕ)
    (hw : 0 < w) (hw32 : w < 2 ^ 32) (hh : 0 < h) (hh32 : h < 2 ^ 32) :
    ∃ t2, t.crop x y (.fin w) (.fin h) = .ok t2 ∧
      t2.canvas.width = w ∧ t2.canvas.height = h ∧
      ∀ i j : ℤ, 0 ≤ i → i < w → 0 ≤ j → j < h →
        t2.canvas.pix i j =
          if 0 ≤ x + i ∧ x + i < (t.canvas.width : ℤ) ∧
              0 ≤ y + j ∧ y + j < (t.canvas.height : ℤ) then
            t.canvas.pix (x + i) (y + j)
          else transparentPixel := by
  unfold ImTool.crop
  rw [emptyCanvas_nat w h hw hw32 hh hh32]
  refine ⟨_, rfl, rfl, rfl, ?_⟩
  intro i j hi hiw hj hjh
  show (drawUnscaled _ t.canvas (-x) (-y)).pix i j = _
  simp only [drawUnscaled]
  rw [show i - -x = x + i from by ring, show j - -y = y + j from by ring]
  split_ifs with hc
  · exact composite_transparentPixel _
  · rfl

theorem crop_rect_spec_witness :
    (0 : ℕ) < 1 ∧
    ∃ t2, ImTool.crop (tool srcCanvas2) 1 1 (.fin ((1 : ℕ) : ℚ)) (.fin ((1 : ℕ) : ℚ)) = .ok t2 ∧
      t2.canvas.width = 1 ∧ t2.canvas.height = 1 ∧
      t2.canvas.pix 0 0 = (tool srcCanvas2).canvas.pix 1 1 := by
  obtain ⟨t2, h1, h2, h3, hp⟩ :=
    crop_rect_spec (tool srcCanvas2) 1 1 1 1 (by decide) (by decide) (by decide) (by decide)
  refine ⟨by decide, t2, h1, h2, h3, ?_⟩
  rw [hp 0 0 (by decide) (by decide) (by decide) (by decide), if_pos (by decide)]
  norm_num

theorem drawFlipped_blank_pix (S : Canvas) (v : Bool) (w0 h0 : ℕ) (ta : Bool) (i j : ℤ)
    (hi : 0 ≤ i) (hiw : i < (S.width : ℤ)) (hj : 0 ≤ j) (hjh : j < (S.height : ℤ)) :
    (drawFlipped { width := w0, height := h0, pix := fun _ _ => transparentPixel, tainted := ta }
        S v).pix i j =
      if v then S.pix i ((S.height : ℤ) - 1 - j) else S.pix ((S.width : ℤ) - 1 - i) j := by
  show (if 0 ≤ i ∧ i < (S.width : ℤ) ∧ 0 ≤ j ∧ j < (S.height : ℤ) then _ else _) = _
  rw [if_pos ⟨hi, hiw, hj, hjh⟩]
  exact composite_transparentPixel _

theorem flip_eq (S : Canvas) (v : Bool) (hw : 0 < S.width) (hw32 : S.width < 2 ^ 32)
    (hh : 0 < S.height) (hh32 : S.height < 2 ^ 32) :
    S.flip v = .ok (drawFlipped
      { width := S.width, height := S.height, pix := fun _ _ => transparentPixel
        tainted := false } S v) := by
  unfold Canvas.flip
  rw [emptyCanvas_nat _ _ hw hw32 hh hh32]

theorem flip_eq2 (S : Canvas) (v : Bool) (hw : 0 < S.width) (hw32 : S.width < 2 ^ 32)
    (hh : 0 < S.height) (hh32 : S.height < 2 ^ 32) :
    ∃ S1, S.flip v = .ok S1 ∧ S1.width = S.width ∧ S1.height = S.height ∧
      ∀ a b : ℤ, 0 ≤ a → a < (S.width : ℤ) → 0 ≤ b → b < (S.height : ℤ) →
        S1.pix a b =
          if v then S.pix a ((S.height : ℤ) - 1 - b) else S.pix ((S.width : ℤ) - 1 - a) b := by
  refine ⟨_, flip_eq S v hw hw32 hh hh32, rfl, rfl, ?_⟩
  intro a b ha haw hb hbh
  exact drawFlipped_blank_pix S v S.width S.height false a b ha haw hb hbh

/-- C8: flip is its own inverse.  For a well-formed surface and either
axis, flipping preserves the dimensions and flipping twice restores every
observable pixel. -/
theorem flip_involutive (S : Canvas) (v : Bool) (hwf : wfCanvas S) :
    ∃ S1 S2, S.flip v = .ok S1 ∧ S1.width = S.width ∧ S1.height = S.height ∧
      S1.flip v = .ok S2 ∧ S2.width = S.width ∧ S2.height = S.height ∧
      ∀ i j : ℤ, 0 ≤ i → i < (S.width : ℤ) → 0 ≤ j → j < (S.height : ℤ) →
        S2.pix i j = S.pix i j := by
  obtain ⟨hw, hw32, hh, hh32⟩ := hwf
  obtain ⟨S1, h1, h1w, h1h, h1p⟩ := flip_eq2 S v hw hw32 hh hh32
  obtain ⟨S2, h2, h2w, h2h, h2p⟩ :=
    flip_eq2 S1 v (h1w ▸ hw) (h1w ▸ hw32) (h1h ▸ hh) (h1h ▸ hh32)
  refine ⟨S1, S2, h1, h1w, h1h, h2, by rw [h2w, h1w], by rw [h2h, h1h], ?_⟩
  intro i j hi hiw hj hjh
  rw [h2p i j hi (by rw [h1w]; exact hiw) hj (by rw [h1h]; exact hjh)]
  simp only [h1w, h1h]
  cases v
  · rw [if_neg (by simp),
      h1p ((S.width : ℤ) - 1 - i) j (by omega) (by omega) hj hjh,
      if_neg (by simp),
      show (S.width : ℤ) - 1 - ((S.width : ℤ) - 1 - i) = i from by ring]
  · rw [if_pos rfl,
      h1p i ((S.height : ℤ) - 1 - j) hi hiw (by omega) (by omega),
      if_pos rfl,
      show (S.height : ℤ) - 1 - ((S.height : ℤ) - 1 - j) = j from by ring]

theorem flip_involutive_witness :
    wfCanvas srcCanvas2 ∧
    ∃ S1 S2, srcCanvas2.flip false = .ok S1 ∧ S1.flip false = .ok S2 ∧
      S1.width = 2 ∧ S2.width = 2 ∧ S2.pix 0 0 = srcCanvas2.pix 0 0 := by
  have hwf : wfCanvas srcCanvas2 := by decide
  obtain ⟨S1, S2, h1, hw1, _, h2, hw2, _, hp⟩ := flip_involutive srcCanvas2 false hwf
  exact ⟨hwf, S1, S2, h1, h2, hw1, hw2, hp 0 0 (by decide) (by decide) (by decide) (by decide)⟩

theorem toDim_small (q : ℚ) (h0 : 0 ≤ q) (hlt : q < 2 ^ 32) :
    (JSNum.fin q).toDim = ⌊q⌋₊ := by
  simp only [JSNum.toDim, if_pos h0]
  rw [Int.emod_eq_of_lt (Int.floor_nonneg.mpr h0) (Int.floor_lt.mpr (by exact_mod_cast hlt)),
    Int.floor_toNat]

theorem thumbParams_fit (input : Canvas) (maxSize : ℚ) :
    thumbParams input maxSize false =
      { scale := min (min (maxSize / input.width) (maxSize / input.height)) 1
        x := 0
        y := 0
        imageWidth := (input.width : ℚ) * min (min (maxSize / input.width) (maxSize / input.height)) 1
        imageHeight := (input.height : ℚ) * min (min (maxSize / input.width) (maxSize / input.height)) 1
        canvasWidth := (input.width : ℚ) * min (min (maxSize / input.width) (maxSize / input.height)) 1
        canvasHeight := (input.height : ℚ) * min (min (maxSize / input.width) (maxSize / input.height)) 1 } := by
  simp [thumbParams]

theorem thumbnail_fit_eq (input : Canvas) (maxSize : ℚ)
    (hcw : 0 < (input.width : ℚ) * min (min (maxSize / input.width) (maxSize / input.height)) 1)
    (hch : 0 < (input.height : ℚ) * min (min (maxSize / input.width) (maxSize / input.height)) 1) :
    ∃ c, input.thumbnail maxSize false = .ok c ∧
      c.width = (JSNum.fin ((input.width : ℚ) *
        min (min (maxSize / input.width) (maxSize / input.height)) 1)).toDim ∧
      c.height = (JSNum.fin ((input.height : ℚ) *
        min (min (maxSize / input.width) (maxSize / input.height)) 1)).toDim := by
  simp only [Canvas.thumbnail, thumbParams_fit]
  rw [emptyCanvas_pos _ _ hcw hch]
  exact ⟨_, rfl, rfl, rfl⟩

/-- C2 counterexample: on a 200 x 300 source with maxSize 100 the fit
scale is 1/3 and the computed width 200 * (1/3) is truncated by the
platform dimension assignment to 66, not rounded to 67 as the claim
states. -/
theorem thumbnail_fit_not_round :
    resWidth (ImTool.thumbnail (tool canvas200x300) 100 false) = 66 ∧
    resHeight (ImTool.thumbnail (tool canvas200x300) 100 false) = 100 ∧
    round ((200 : ℚ) * (thumbParams canvas200x300 100 false).scale) = 67 ∧
    ¬(66 : ℤ) = 67 := by
  have hmin : min (min ((100 : ℚ) / (canvas200x300.width : ℚ))
      ((100 : ℚ) / (canvas200x300.height : ℚ))) 1 = 1 / 3 := by
    show min (min ((100 : ℚ) / ((200 : ℕ) : ℚ)) ((100 : ℚ) / ((300 : ℕ) : ℚ))) 1 = 1 / 3
    push_cast
    rw [show min ((100 : ℚ) / 200) ((100 : ℚ) / 300) = (100 : ℚ) / 300 from
        min_eq_right (by norm_num),
      show min ((100 : ℚ) / 300) (1 : ℚ) = (100 : ℚ) / 300 from min_eq_left (by norm_num)]
    norm_num
  obtain ⟨c, hc, hcw, hch⟩ := thumbnail_fit_eq canvas200x300 100
    (by rw [hmin]; show (0 : ℚ) < ((200 : ℕ) : ℚ) * (1 / 3); push_cast; norm_num)
    (by rw [hmin]; show (0 : ℚ) < ((300 : ℕ) : ℚ) * (1 / 3); push_cast; norm_num)
  rw [hmin] at hcw hch
  rw [show (canvas200x300.width : ℚ) * (1 / 3) = 200 / 3 from by
      show ((200 : ℕ) : ℚ) * (1 / 3) = 200 / 3; push_cast; ring] at hcw
  rw [show (canvas200x300.height : ℚ) * (1 / 3) = 100 from by
      show ((300 : ℕ) : ℚ) * (1 / 3) = 100; push_cast; ring] at hch
  rw [toDim_small _ (by norm_num) (by norm_num)] at hcw
  rw [toDim_small _ (by norm_num) (by norm_num)] at hch
  have htool : ImTool.thumbnail (tool canvas200x300) 100 false =
      .ok { tool canvas200x300 with canvas := c } := by
    unfold ImTool.thumbnail
    show (match canvas200x300.thumbnail 100 false with
      | .error e => Except.error e
      | .ok c2 => .ok { tool canvas200x300 with canvas := c2 }) = _
    rw [hc]
  refine ⟨?_, ?_, ?_, by norm_num⟩
  · rw [htool]
    show c.width = 66
    rw [hcw]
    norm_num [Nat.floor_eq_iff]
  · rw [htool]
    show c.height = 100
    rw [hch]
    norm_num [Nat.floor_eq_iff]
  · rw [thumbParams_fit]
    show round ((200 : ℚ) * min (min ((100 : ℚ) / (canvas200x300.width : ℚ))
      ((100 : ℚ) / (canvas200x300.height : ℚ))) 1) = 67
    rw [hmin]
    norm_num [round_eq, Int.floor_eq_iff]

/-- C2 (amended): thumbnail in fit mode uses
scale = min(maxSize / w, maxSize / h, 1) and yields output dimensions
floor(w * scale) x floor(h * scale) — the platform dimension assignment
truncates, it does not round; the result never has a dimension greater
than maxSize on either axis and never upscales. -/
theorem thumbnail_fit_floor_bounds (t : ImTool) (maxSize : ℚ)
    (hwf : wfCanvas t.canvas) (hm : 0 < maxSize) :
    ∃ t2, t.thumbnail maxSize false = .ok t2 ∧
      t2.canvas.width =
        ⌊(t.canvas.width : ℚ) *
          min (min (maxSize / t.canvas.width) (maxSize / t.canvas.height)) 1⌋₊ ∧
      t2.canvas.height =
        ⌊(t.canvas.height : ℚ) *
          min (min (maxSize / t.canvas.width) (maxSize / t.canvas.height)) 1⌋₊ ∧
      (t2.canvas.width : ℚ) ≤ maxSize ∧ (t2.canvas.height : ℚ) ≤ maxSize ∧
      t2.canvas.width ≤ t.canvas.width ∧ t2.canvas.height ≤ t.canvas.height := by
  obtain ⟨hw, hw32, hh, hh32⟩ := hwf
  have hwQ : (0 : ℚ) < t.canvas.width := by exact_mod_cast hw
  have hhQ : (0 : ℚ) < t.canvas.height := by exact_mod_cast hh
  have hs0 : 0 < min (min (maxSize / t.canvas.width) (maxSize / t.canvas.height)) 1 :=
    lt_min (lt_min (div_pos hm hwQ) (div_pos hm hhQ)) one_pos
  have hs1 : min (min (maxSize / t.canvas.width) (maxSize / t.canvas.height)) 1 ≤ 1 :=
    min_le_right _ _
  have hsw : min (min (maxSize / t.canvas.width) (maxSize / t.canvas.height)) 1 ≤
      maxSize / t.canvas.width :=
    le_trans (min_le_left _ _) (min_le_left _ _)
  have hsh : min (min (maxSize / t.canvas.width) (maxSize / t.canvas.height)) 1 ≤
      maxSize / t.canvas.height :=
    le_trans (min_le_left _ _) (min_le_right _ _)
  have hwm : (t.canvas.width : ℚ) *
      min (min (maxSize / t.canvas.width) (maxSize / t.canvas.height)) 1 ≤ maxSize := by
    rw [mul_comm]
    exact (le_div_iff₀ hwQ).mp hsw
  have hhm : (t.canvas.height : ℚ) *
      min (min (maxSize / t.canvas.width) (maxSize / t.canvas.height)) 1 ≤ maxSize := by
    rw [mul_comm]
    exact (le_div_iff₀ hhQ).mp hsh
  have hwle : (t.canvas.width : ℚ) *
      min (min (maxSize / t.canvas.width) (maxSize / t.canvas.height)) 1 ≤ t.canvas.width := by
    calc (t.canvas.width : ℚ) * min (min (maxSize / t.canvas.width) (maxSize / t.canvas.height)) 1
        ≤ (t.canvas.width : ℚ) * 1 := mul_le_mul_of_nonneg_left hs1 (le_of_lt hwQ)
      _ = t.canvas.width := mul_one _
  have hhle : (t.canvas.height : ℚ) *
      min (min (maxSize / t.canvas.width) (maxSize / t.canvas.height)) 1 ≤ t.canvas.height := by
    calc (t.canvas.height : ℚ) * min (min (maxSize / t.canvas.width) (maxSize / t.canvas.height)) 1
        ≤ (t.canvas.height : ℚ) * 1 := mul_le_mul_of_nonneg_left hs1 (le_of_lt hhQ)
      _ = t.canvas.height := mul_one _
  have hwpos : 0 < (t.canvas.width : ℚ) *
      min (min (maxSize / t.canvas.width) (maxSize / t.canvas.height)) 1 := mul_pos hwQ hs0
  have hhpos : 0 < (t.canvas.height : ℚ) *
      min (min (maxSize / t.canvas.width) (maxSize / t.canvas.height)) 1 := mul_pos hhQ hs0
  have hwlt : (t.canvas.width : ℚ) *
      min (min (maxSize / t.canvas.width) (maxSize / t.canvas.height)) 1 < 2 ^ 32 :=
    lt_of_le_of_lt hwle (by exact_mod_cast hw32)
  have hhlt : (t.canvas.height : ℚ) *
      min (min (maxSize / t.canvas.width) (maxSize / t.canvas.height)) 1 < 2 ^ 32 :=
    lt_of_le_of_lt hhle (by exact_mod_cast hh32)
  obtain ⟨c, hc, hcw, hch⟩ := thumbnail_fit_eq t.canvas maxSize hwpos hhpos
  rw [toDim_small _ (le_of_lt hwpos) hwlt] at hcw
  rw [toDim_small _ (le_of_lt hhpos) hhlt] at hch
  refine ⟨{ t with canvas := c }, ?_, hcw, hch, ?_, ?_, ?_, ?_⟩
  · unfold ImTool.thumbnail
    rw [hc]
  · rw [hcw]
    exact le_trans (Nat.floor_le (le_of_lt hwpos)) hwm
  · rw [hch]
    exact le_trans (Nat.floor_le (le_of_lt hhpos)) hhm
  · rw [hcw]
    calc ⌊(t.canvas.width : ℚ) *
          min (min (maxSize / t.canvas.width) (maxSize / t.canvas.height)) 1⌋₊
        ≤ ⌊((t.canvas.width : ℕ) : ℚ)⌋₊ := Nat.floor_mono hwle
      _ = t.canvas.width := Nat.floor_natCast _
  · rw [hch]
    calc ⌊(t.canvas.height : ℚ) *
          min (min (maxSize / t.canvas.width) (maxSize / t.canvas.height)) 1⌋₊
        ≤ ⌊((t.canvas.height : ℕ) : ℚ)⌋₊ := Nat.floor_mono hhle
      _ = t.canvas.height := Nat.floor_natCast _

theorem thumbnail_fit_floor_bounds_witness :
    wfCanvas canvas200x300 ∧ (0 : ℚ) < 100 ∧
    ∃ t2, ImTool.thumbnail (tool canvas200x300) 100 false = .ok t2 ∧
      (t2.canvas.width : ℚ) ≤ 100 ∧ t2.canvas.width ≤ 200 := by
  obtain ⟨t2, h1, _, _, h4, _, h6, _⟩ :=
    thumbnail_fit_floor_bounds (tool canvas200x300) 100 (by decide) (by decide)
  exact ⟨by decide, by decide, t2, h1, h4, h6⟩

theorem thumbParams_cover_gt (input : Canvas) (maxSize : ℚ) (hgt : input.height < input.width) :
    thumbParams input maxSize true =
      { scale := maxSize / input.height
        x := (-1 * ((input.width : ℚ) * (maxSize / input.height) - maxSize)) / 2
        y := 0
        imageWidth := (input.width : ℚ) * (maxSize / input.height)
        imageHeight := maxSize
        canvasWidth := maxSize
        canvasHeight := maxSize } := by
  simp [thumbParams, hgt]

theorem thumbParams_cover_le (input : Canvas) (maxSize : ℚ)
    (hle : ¬input.height < input.width) :
    thumbParams input maxSize true =
      { scale := maxSize / input.width
        x := 0
        y := (-1 * ((input.height : ℚ) * (maxSize / input.width) - maxSize)) / 2
        imageWidth := maxSize
        imageHeight := (input.height : ℚ) * (maxSize / input.width)
        canvasWidth := maxSize
        canvasHeight := maxSize } := by
  simp [thumbParams, hle]

theorem thumbnail_cover_eq (input : Canvas) (maxSize : ℚ) (hm : 0 < maxSize) :
    ∃ c, input.thumbnail maxSize true = .ok c ∧
      c.width = (JSNum.fin maxSize).toDim ∧ c.height = (JSNum.fin maxSize).toDim := by
  by_cases hgt : input.height < input.width
  · simp only [Canvas.thumbnail, thumbParams_cover_gt input maxSize hgt]
    rw [emptyCanvas_pos _ _ hm hm]
    exact ⟨_, rfl, rfl, rfl⟩
  · simp only [Canvas.thumbnail, thumbParams_cover_le input maxSize hgt]
    rw [emptyCanvas_pos _ _ hm hm]
    exact ⟨_, rfl, rfl, rfl⟩

/-- C3 counterexample: with the fractional maximum size 5/2 on a 1 x 1
source, cover mode allocates a 2 x 2 surface — the platform truncates the
dimension on assignment — so the output is not exactly maxSize x maxSize
as the claim states for every maxSize > 0. -/
theorem thumbnail_cover_fractional :
    resWidth (ImTool.thumbnail (tool canvas1x1) (5 / 2) true) = 2 ∧
    resHeight (ImTool.thumbnail (tool canvas1x1) (5 / 2) true) = 2 ∧
    ¬((2 : ℚ) = 5 / 2) := by
  obtain ⟨c, hc, hcw, hch⟩ := thumbnail_cover_eq canvas1x1 (5 / 2) (by norm_num)
  rw [toDim_small _ (by norm_num) (by norm_num)] at hcw hch
  have htool : ImTool.thumbnail (tool canvas1x1) (5 / 2) true =
      .ok { tool canvas1x1 with canvas := c } := by
    unfold ImTool.thumbnail
    show (match canvas1x1.thumbnail (5 / 2) true with
      | .error e => Except.error e
      | .ok c2 => .ok { tool canvas1x1 with canvas := c2 }) = _
    rw [hc]
  refine ⟨?_, ?_, by norm_num⟩
  · rw [htool]
    show c.width = 2
    rw [hcw]
    norm_num [Nat.floor_eq_iff]
  · rw [htool]
    show c.height = 2
    rw [hch]
    norm_num [Nat.floor_eq_iff]

/-- C3 (amended): thumbnail in cover mode yields a square of exactly
floor(maxSize) x floor(maxSize) — exactly maxSize x maxSize whenever
maxSize is a positive integer, the platform truncating a fractional
maxSize on assignment — and computes the scale and centering offsets
exactly as claimed: when the source is wider than tall,
scale = maxSize / sourceHeight, offsetX = -(sourceWidth * scale - maxSize) / 2
and offsetY = 0, and symmetrically otherwise. -/
theorem thumbnail_cover_square (t : ImTool) (maxSize : ℚ)
    (hm : 0 < maxSize) (hm32 : maxSize < 2 ^ 32) :
    ∃ t2, t.thumbnail maxSize true = .ok t2 ∧
      t2.canvas.width = ⌊maxSize⌋₊ ∧ t2.canvas.height = ⌊maxSize⌋₊ ∧
      (t.canvas.width > t.canvas.height →
        (thumbParams t.canvas maxSize true).scale = maxSize / t.canvas.height ∧
        (thumbParams t.canvas maxSize true).x =
          -(((t.canvas.width : ℚ) * (maxSize / t.canvas.height) - maxSize) / 2) ∧
        (thumbParams t.canvas maxSize true).y = 0) ∧
      (¬t.canvas.width > t.canvas.height →
        (thumbParams t.canvas maxSize true).scale = maxSize / t.canvas.width ∧
        (thumbParams t.canvas maxSize true).y =
          -(((t.canvas.height : ℚ) * (maxSize / t.canvas.width) - maxSize) / 2) ∧
        (thumbParams t.canvas maxSize true).x = 0) := by
  obtain ⟨c, hc, hcw, hch⟩ := thumbnail_cover_eq t.canvas maxSize hm
  rw [toDim_small _ (le_of_lt hm) hm32] at hcw hch
  refine ⟨{ t with canvas := c }, ?_, hcw, hch, ?_, ?_⟩
  · unfold ImTool.thumbnail
    rw [hc]
  · intro hgt
    rw [thumbParams_cover_gt t.canvas maxSize hgt]
    refine ⟨rfl, ?_, rfl⟩
    show (-1 * ((t.canvas.width : ℚ) * (maxSize / t.canvas.height) - maxSize)) / 2 =
      -(((t.canvas.width : ℚ) * (maxSize / t.canvas.height) - maxSize) / 2)
    ring
  · intro hle
    rw [thumbParams_cover_le t.canvas maxSize hle]
    refine ⟨rfl, ?_, rfl⟩
    show (-1 * ((t.canvas.height : ℚ) * (maxSize / t.canvas.width) - maxSize)) / 2 =
      -(((t.canvas.height : ℚ) * (maxSize / t.canvas.width) - maxSize) / 2)
    ring

theorem thumbnail_cover_square_witness :
    (0 : ℚ) < 100 ∧
    ∃ t2, ImTool.thumbnail (tool canvas200x300) 100 true = .ok t2 ∧
      t2.canvas.width = 100 ∧ t2.canvas.height = 100 := by
  obtain ⟨t2, h1, h2, h3, _⟩ := thumbnail_cover_square (tool canvas200x300) 100
    (by norm_num) (by norm_num)
  have hf : (⌊(100 : ℚ)⌋₊ : ℕ) = 100 := by norm_num
  exact ⟨by norm_num, t2, h1, by rw [h2, hf], by rw [h3, hf]⟩

theorem emptyCanvas_ok_fields (w h : JSNum) (c : Canvas) (he : emptyCanvas w h = .ok c) :
    c.width = w.toDim ∧ c.height = h.toDim ∧ c.tainted = false := by
  unfold emptyCanvas at he
  split at he
  · exact absurd he (by simp)
  · injection he with he
    subst he
    exact ⟨rfl, rfl, rfl⟩

theorem fromImageLike_ok_valid (im : ImageLike) (c : Canvas) (h : fromImageLike im = .ok c) :
    ¬(im.kind = .image ∧ im.complete = false ∧ im.naturalWidth = 0) ∧
    ¬(im.kind = .video ∧ (im.readyState < 2 ∨ im.ended = true)) ∧
    im.tainted = false := by
  unfold fromImageLike at h
  by_cases h1 : im.kind = .image ∧ im.complete = false ∧ im.naturalWidth = 0
  · rw [if_pos h1] at h
    exact absurd h (by simp)
  · rw [if_neg h1] at h
    by_cases h2 : im.kind = .video ∧ (im.readyState < 2 ∨ im.ended = true)
    · rw [if_pos h2] at h
      exact absurd h (by simp)
    · rw [if_neg h2] at h
      refine ⟨h1, h2, ?_⟩
      cases he : emptyCanvas (.fin im.drawSize.1) (.fin im.drawSize.2) with
      | error e =>
        rw [he] at h
        exact absurd h (by simp)
      | ok c0 =>
        simp only [he] at h
        by_cases ht : isTainted (drawUnscaled c0 im.asCanvas 0 0) = true
        · rw [if_pos ht] at h
          exact absurd h (by simp)
        · have hb : (c0.tainted || im.tainted) = false := by
            rw [← Bool.not_eq_true]
            exact ht
          simp only [Bool.or_eq_false_iff] at hb
          exact hb.2

theorem fromImageLike_ok_dims (im : ImageLike) (c : Canvas) (h : fromImageLike im = .ok c) :
    c.width = (JSNum.fin (im.drawSize.1 : ℚ)).toDim ∧
    c.height = (JSNum.fin (im.drawSize.2 : ℚ)).toDim := by
  unfold fromImageLike at h
  split at h
  · exact absurd h (by simp)
  · split at h
    · exact absurd h (by simp)
    · cases he : emptyCanvas (.fin im.drawSize.1) (.fin im.drawSize.2) with
      | error e =>
        rw [he] at h
        exact absurd h (by simp)
      | ok c0 =>
        simp only [he] at h
        obtain ⟨hw0, hh0, _⟩ := emptyCanvas_ok_fields _ _ _ he
        by_cases ht : isTainted (drawUnscaled c0 im.asCanvas 0 0) = true
        · rw [if_pos ht] at h
          exact absurd h (by simp)
        · rw [if_neg ht] at h
          injection h with h
          subst h
          exact ⟨hw0, hh0⟩

theorem create_ok_fields (im : ImageLike) (t : ImTool) (h : ImTool.create im = .ok t) :
    t.originalWidth = (JSNum.fin (im.drawSize.1 : ℚ)).toDim ∧
    t.originalHeight = (JSNum.fin (im.drawSize.2 : ℚ)).toDim := by
  unfold ImTool.create at h
  cases hf : fromImageLike im with
  | error e =>
    rw [hf] at h
    exact absurd h (by simp)
  | ok c =>
    rw [hf] at h
    injection h with h
    subst h
    exact fromImageLike_ok_dims im c hf

/-- C6: construction validates the source.  A not fully loaded image or
video source fails with the corresponding not-loaded error, a ready source
whose readback probe fails (its content is tainted) fails with the tainted
canvas error, and whenever construction returns a pipeline object the
source had passed both checks — on failure no object is produced. -/
theorem construct_validates (im : ImageLike) :
    (im.kind = .image → im.complete = false → im.naturalWidth = 0 →
      ImTool.create im = .error .imageNotLoaded) ∧
    (im.kind = .video → (im.readyState < 2 ∨ im.ended = true) →
      ImTool.create im = .error .videoNotLoaded) ∧
    (¬(im.kind = .image ∧ im.complete = false ∧ im.naturalWidth = 0) →
      ¬(im.kind = .video ∧ (im.readyState < 2 ∨ im.ended = true)) →
      0 < im.drawSize.1 → 0 < im.drawSize.2 → im.tainted = true →
      ImTool.create im = .error .taintedCanvas) ∧
    (∀ t, ImTool.create im = .ok t →
      ¬(im.kind = .image ∧ im.complete = false ∧ im.naturalWidth = 0) ∧
      ¬(im.kind = .video ∧ (im.readyState < 2 ∨ im.ended = true)) ∧
      im.tainted = false) := by
  refine ⟨?_, ?_, ?_, ?_⟩
  · intro h1 h2 h3
    simp [ImTool.create, fromImageLike, h1, h2, h3]
  · intro h1 h2
    have hne : ¬(im.kind = .image ∧ im.complete = false ∧ im.naturalWidth = 0) := by
      rw [h1]
      simp
    rcases h2 with h2 | h2 <;>
      simp [ImTool.create, fromImageLike, hne, h1, h2]
  · intro hn1 hn2 hw hh ht
    simp only [ImTool.create, fromImageLike, if_neg hn1, if_neg hn2]
    rw [emptyCanvas_pos (im.drawSize.1 : ℚ) (im.drawSize.2 : ℚ)
      (by exact_mod_cast hw) (by exact_mod_cast hh)]
    simp [isTainted, drawUnscaled, ImageLike.asCanvas, ht]
  · intro t h
    unfold ImTool.create at h
    cases hf : fromImageLike im with
    | error e =>
      rw [hf] at h
      exact absurd h (by simp)
    | ok c =>
      exact fromImageLike_ok_valid im c hf

theorem construct_validates_witness :
    imNotLoaded.kind = .image ∧ imNotLoaded.complete = false ∧ imNotLoaded.naturalWidth = 0 ∧
    ImTool.create imNotLoaded = .error .imageNotLoaded ∧
    imTainted.tainted = true ∧
    ImTool.create imTainted = .error .taintedCanvas := by
  refine ⟨rfl, rfl, rfl, (construct_validates imNotLoaded).1 rfl rfl rfl, rfl, ?_⟩
  exact (construct_validates imTainted).2.2.1 (by decide) (by decide) (by decide) (by decide) rfl

theorem applyOp_preserves_original (t : ImTool) (op : Op) (t2 : ImTool)
    (h : applyOp t op = .ok t2) :
    t2.originalWidth = t.originalWidth ∧ t2.originalHeight = t.originalHeight := by
  cases op with
  | crop x y w hh =>
    simp only [applyOp] at h
    unfold ImTool.crop at h
    cases he : emptyCanvas w hh with
    | error e =>
      rw [he] at h
      exact absurd h (by simp)
    | ok c =>
      rw [he] at h
      injection h with h
      subst h
      exact ⟨rfl, rfl⟩
  | scale w hh =>
    simp only [applyOp] at h
    unfold ImTool.scale at h
    cases he : emptyCanvas w hh with
    | error e =>
      rw [he] at h
      exact absurd h (by simp)
    | ok c =>
      rw [he] at h
      cases w <;> cases hh <;> (injection h with h; subst h; exact ⟨rfl, rfl⟩)
  | flip v =>
    simp only [applyOp] at h
    unfold ImTool.flip at h
    cases he : t.canvas.flip v with
    | error e =>
      rw [he] at h
      exact absurd h (by simp)
    | ok c =>
      rw [he] at h
      injection h with h
      subst h
      exact ⟨rfl, rfl⟩
  | thumbnail m cov =>
    simp only [applyOp] at h
    unfold ImTool.thumbnail at h
    cases he : t.canvas.thumbnail m cov with
    | error e =>
      rw [he] at h
      exact absurd h (by simp)
    | ok c =>
      rw [he] at h
      injection h with h
      subst h
      exact ⟨rfl, rfl⟩
  | rotate rad =>
    simp only [applyOp] at h
    unfold ImTool.rotate at h
    cases he : t.canvas.rotate rad with
    | error e =>
      rw [he] at h
      exact absurd h (by simp)
    | ok c =>
      rw [he] at h
      injection h with h
      subst h
      exact ⟨rfl, rfl⟩
  | background color =>
    simp only [applyOp] at h
    unfold ImTool.background at h
    cases he : emptyCanvas (.fin t.canvas.width) (.fin t.canvas.height) with
    | error e =>
      rw [he] at h
      exact absurd h (by simp)
    | ok c =>
      rw [he] at h
      injection h with h
      subst h
      exact ⟨rfl, rfl⟩

theorem runChain_preserves_original (t : ImTool) (ops : List Op) :
    (runChain t ops).originalWidth = t.originalWidth ∧
    (runChain t ops).originalHeight = t.originalHeight := by
  induction ops generalizing t with
  | nil => exact ⟨rfl, rfl⟩
  | cons op rest ih =>
    cases hop : applyOp t op with
    | ok s2 =>
      have hstep : runChain t (op :: rest) = runChain s2 rest := by
        simp only [runChain, List.foldl_cons, hop]
      rw [hstep]
      obtain ⟨hw, hh⟩ := applyOp_preserves_original t op s2 hop
      obtain ⟨ihw, ihh⟩ := ih s2
      exact ⟨ihw.trans hw, ihh.trans hh⟩
    | error e =>
      have hstep : runChain t (op :: rest) = runChain t rest := by
        simp only [runChain, List.foldl_cons, hop]
      rw [hstep]
      exact ih t

/-- C7: originalWidth and originalHeight equal the dimensions observed at
construction and are never changed by any chain of crop, scale, flip,
thumbnail, rotate or background calls, whether the calls succeed or
fail. -/
theorem original_dims_immutable (im : ImageLike) (t : ImTool) (ops : List Op)
    (h : ImTool.create im = .ok t)
    (hW : im.drawSize.1 < 2 ^ 32) (hH : im.drawSize.2 < 2 ^ 32) :
    (runChain t ops).originalWidth = im.drawSize.1 ∧
    (runChain t ops).originalHeight = im.drawSize.2 := by
  obtain ⟨hw, hh⟩ := create_ok_fields im t h
  rw [toDim_natCast_lt _ hW] at hw
  rw [toDim_natCast_lt _ hH] at hh
  obtain ⟨cw, ch⟩ := runChain_preserves_original t ops
  exact ⟨cw.trans hw, ch.trans hh⟩

theorem original_dims_immutable_witness :
    ImTool.create imPlain = .ok toolPlain ∧
    (runChain toolPlain
      [Op.crop 0 0 (.fin 50) (.fin 50), Op.rotate (3 / 10), Op.scale (.fin 10) (.fin 10)]
      ).originalWidth = 200 ∧
    (runChain toolPlain
      [Op.crop 0 0 (.fin 50) (.fin 50), Op.rotate (3 / 10), Op.scale (.fin 10) (.fin 10)]
      ).originalHeight = 400 := by
  have hc : ImTool.create imPlain = .ok toolPlain := rfl
  obtain ⟨h1, h2⟩ := original_dims_immutable imPlain toolPlain
    [Op.crop 0 0 (.fin 50) (.fin 50), Op.rotate (3 / 10), Op.scale (.fin 10) (.fin 10)]
    hc (by decide) (by decide)
  exact ⟨hc, h1, h2⟩

theorem emptyCanvasR_err (w h : ℝ) (hc : w ≤ 0 ∨ h ≤ 0) :
    emptyCanvasR w h = .error .invalidDimension := by
  unfold emptyCanvasR
  exact if_pos hc

theorem emptyCanvasR_pos (w h : ℝ) (hw : 0 < w) (hh : 0 < h) :
    emptyCanvasR w h =
      .ok { width := (⌊w⌋ % (2 ^ 32 : ℤ)).toNat, height := (⌊h⌋ % (2 ^ 32 : ℤ)).toNat
            pix := fun _ _ => transparentPixel, tainted := false } := by
  unfold emptyCanvasR
  rw [if_neg]
  rw [not_or]
  exact ⟨not_le.mpr hw, not_le.mpr hh⟩

theorem rdim_small (x : ℝ) (h0 : 0 ≤ x) (hlt : x < 2 ^ 32) :
    (⌊x⌋ % (2 ^ 32 : ℤ)).toNat = ⌊x⌋₊ := by
  rw [Int.emod_eq_of_lt (Int.floor_nonneg.mpr h0) (Int.floor_lt.mpr (by exact_mod_cast hlt)),
    Int.floor_toNat]

theorem jsMod_zero_left (y : ℝ) : jsMod 0 y = 0 := by
  unfold jsMod jsTrunc
  rw [zero_div, if_pos le_rfl, Int.floor_zero]
  push_cast
  ring

theorem jsMod_self (y : ℝ) (hy : y ≠ 0) : jsMod y y = 0 := by
  unfold jsMod jsTrunc
  rw [div_self hy, if_pos (by norm_num : (0 : ℝ) ≤ 1), Int.floor_one]
  push_cast
  ring

theorem jsMod_mem (x y : ℝ) (hx : 0 ≤ x) (hy : 0 < y) :
    0 ≤ jsMod x y ∧ jsMod x y < y := by
  have hyne : y ≠ 0 := ne_of_gt hy
  have hfl : ((⌊x / y⌋ : ℤ) : ℝ) ≤ x / y := Int.floor_le _
  have hfu : x / y < (⌊x / y⌋ : ℤ) + 1 := Int.lt_floor_add_one _
  have hcancel : y * (x / y) = x := by
    rw [mul_comm, div_mul_cancel₀ _ hyne]
  constructor
  · unfold jsMod jsTrunc
    rw [if_pos (div_nonneg hx hy.le)]
    have hle : y * ((⌊x / y⌋ : ℤ) : ℝ) ≤ x := by
      calc y * ((⌊x / y⌋ : ℤ) : ℝ) ≤ y * (x / y) := mul_le_mul_of_nonneg_left hfl hy.le
        _ = x := hcancel
    linarith
  · unfold jsMod jsTrunc
    rw [if_pos (div_nonneg hx hy.le)]
    have hlt : x < y * (((⌊x / y⌋ : ℤ) : ℝ) + 1) := by
      calc x = y * (x / y) := hcancel.symm
        _ < y * (((⌊x / y⌋ : ℤ) : ℝ) + 1) := mul_lt_mul_of_pos_left hfu hy
    rw [mul_add, mul_one] at hlt
    linarith

theorem foldAngle_zero : foldAngle 0 = 0 := by
  unfold foldAngle
  rw [if_neg]
  push_neg
  linarith [Real.pi_pos]

theorem foldAngle_mem (m : ℝ) (h0 : 0 ≤ m) (h2 : m < Real.pi * 2) :
    0 ≤ foldAngle m ∧ foldAngle m ≤ Real.pi / 2 := by
  have hpi := Real.pi_pos
  unfold foldAngle
  split_ifs with hc1 hc2 hc3 <;> constructor <;> linarith

/-- C4 counterexample: rotating a 1 x 1 surface by the angle -(pi / 2)
throws InvalidDimension instead of yielding the 1 x 1 bounding box the
claim states for every angle: the JS remainder keeps the sign of the
dividend, so the negative angle is not folded into [0, pi / 2] and the
computed width 1 * cos(-(pi/2)) + 1 * cos(pi) = -1 fails the allocation
check. -/
theorem rotate_negative_angle :
    ImTool.rotate (tool canvas1x1) (-(Real.pi / 2)) = .error .invalidDimension := by
  have hmod : jsMod (-(Real.pi / 2)) (Real.pi * 2) = -(Real.pi / 2) := by
    unfold jsMod jsTrunc
    have hdiv : -(Real.pi / 2) / (Real.pi * 2) = -(1 / 4) := by
      rw [div_eq_iff (by positivity : (Real.pi * 2) ≠ 0)]
      ring
    rw [hdiv, if_neg (by norm_num),
      show ⌈(-(1 / 4) : ℝ)⌉ = 0 from by
        rw [Int.ceil_eq_zero_iff]
        constructor <;> norm_num]
    push_cast
    ring
  have hfold : foldAngle (-(Real.pi / 2)) = -(Real.pi / 2) := by
    unfold foldAngle
    rw [if_neg]
    push_neg
    linarith [Real.pi_pos]
  have herr : (tool canvas1x1).canvas.rotate (-(Real.pi / 2)) = .error .invalidDimension := by
    show canvas1x1.rotate (-(Real.pi / 2)) = .error .invalidDimension
    unfold Canvas.rotate
    rw [hmod, hfold]
    rw [emptyCanvasR_err _ _ (Or.inl (by
      rw [show Real.pi / 2 - -(Real.pi / 2) = Real.pi from by ring, Real.cos_neg,
        Real.cos_pi_div_two, Real.cos_pi]
      show ((1 : ℕ) : ℝ) * 0 + ((1 : ℕ) : ℝ) * (-1) ≤ 0
      norm_num))]
  unfold ImTool.rotate
  rw [herr]

theorem rotate_ok_dims (input : Canvas) (rad : ℝ)
    (hW : 0 < (input.width : ℝ) * Real.cos (foldAngle (jsMod rad (Real.pi * 2))) +
      (input.height : ℝ) * Real.cos (Real.pi / 2 - foldAngle (jsMod rad (Real.pi * 2))))
    (hH : 0 < (input.width : ℝ) * Real.sin (foldAngle (jsMod rad (Real.pi * 2))) +
      (input.height : ℝ) * Real.sin (Real.pi / 2 - foldAngle (jsMod rad (Real.pi * 2)))) :
    ∃ c, input.rotate rad = .ok c ∧
      c.width = (⌊(input.width : ℝ) * Real.cos (foldAngle (jsMod rad (Real.pi * 2))) +
        (input.height : ℝ) * Real.cos (Real.pi / 2 - foldAngle (jsMod rad (Real.pi * 2)))⌋ %
        (2 ^ 32 : ℤ)).toNat ∧
      c.height = (⌊(input.width : ℝ) * Real.sin (foldAngle (jsMod rad (Real.pi * 2))) +
        (input.height : ℝ) * Real.sin (Real.pi / 2 - foldAngle (jsMod rad (Real.pi * 2)))⌋ %
        (2 ^ 32 : ℤ)).toNat := by
  unfold Canvas.rotate
  rw [emptyCanvasR_pos _ _ hW hH]
  exact ⟨_, rfl, rfl, rfl⟩

/-- C4 (amended): for every non-negative angle, rotate folds the angle
taken modulo 2 pi into [0, pi / 2] through the 90-degree symmetry of the
bounding box and resizes the output to the platform truncation of
newWidth = sourceWidth * cos(a) + sourceHeight * sin(a) and
newHeight = sourceWidth * sin(a) + sourceHeight * cos(a) for the folded
angle a; rotate(S, 0) yields dimensions equal to the source dimensions and
rotating by 2 pi is equivalent to rotating by 0.  For negative angles the
fold does not land in [0, pi / 2] and rotate can fail (see the
counterexample). -/
theorem rotate_bounding_box (t : ImTool)
    (hw : 0 < t.canvas.width) (hh : 0 < t.canvas.height)
    (h32 : t.canvas.width + t.canvas.height < 2 ^ 32) :
    (∀ rad : ℝ, 0 ≤ rad →
      0 ≤ foldAngle (jsMod rad (Real.pi * 2)) ∧
      foldAngle (jsMod rad (Real.pi * 2)) ≤ Real.pi / 2 ∧
      ∃ t2, t.rotate rad = .ok t2 ∧
        t2.canvas.width = ⌊(t.canvas.width : ℝ) *
            Real.cos (foldAngle (jsMod rad (Real.pi * 2))) +
          (t.canvas.height : ℝ) * Real.sin (foldAngle (jsMod rad (Real.pi * 2)))⌋₊ ∧
        t2.canvas.height = ⌊(t.canvas.width : ℝ) *
            Real.sin (foldAngle (jsMod rad (Real.pi * 2))) +
          (t.canvas.height : ℝ) * Real.cos (foldAngle (jsMod rad (Real.pi * 2)))⌋₊) ∧
    (∃ t0, t.rotate 0 = .ok t0 ∧ t0.canvas.width = t.canvas.width ∧
      t0.canvas.height = t.canvas.height) ∧
    t.rotate (Real.pi * 2) = t.rotate 0 := by
  have hwR : (1 : ℝ) ≤ (t.canvas.width : ℝ) := by exact_mod_cast hw
  have hhR : (1 : ℝ) ≤ (t.canvas.height : ℝ) := by exact_mod_cast hh
  have h32R : (t.canvas.width : ℝ) + (t.canvas.height : ℝ) < 2 ^ 32 := by
    exact_mod_cast h32
  have hW0 : (0 : ℝ) ≤ (t.canvas.width : ℝ) := by linarith
  have hH0 : (0 : ℝ) ≤ (t.canvas.height : ℝ) := by linarith
  have hpart1 : ∀ rad : ℝ, 0 ≤ rad →
      0 ≤ foldAngle (jsMod rad (Real.pi * 2)) ∧
      foldAngle (jsMod rad (Real.pi * 2)) ≤ Real.pi / 2 ∧
      ∃ t2, t.rotate rad = .ok t2 ∧
        t2.canvas.width = ⌊(t.canvas.width : ℝ) *
            Real.cos (foldAngle (jsMod rad (Real.pi * 2))) +
          (t.canvas.height : ℝ) * Real.sin (foldAngle (jsMod rad (Real.pi * 2)))⌋₊ ∧
        t2.canvas.height = ⌊(t.canvas.width : ℝ) *
            Real.sin (foldAngle (jsMod rad (Real.pi * 2))) +
          (t.canvas.height : ℝ) * Real.cos (foldAngle (jsMod rad (Real.pi * 2)))⌋₊ := by
    intro rad hrad
    obtain ⟨hm0, hmlt⟩ := jsMod_mem rad (Real.pi * 2) hrad (by positivity)
    obtain ⟨ha0, ha2⟩ := foldAngle_mem _ hm0 hmlt
    have hpi := Real.pi_pos
    have hcos : 0 ≤ Real.cos (foldAngle (jsMod rad (Real.pi * 2))) :=
      Real.cos_nonneg_of_mem_Icc ⟨by linarith, ha2⟩
    have hsin : 0 ≤ Real.sin (foldAngle (jsMod rad (Real.pi * 2))) :=
      Real.sin_nonneg_of_nonneg_of_le_pi ha0 (by linarith)
    have hcos1 : Real.cos (foldAngle (jsMod rad (Real.pi * 2))) ≤ 1 := Real.cos_le_one _
    have hsin1 : Real.sin (foldAngle (jsMod rad (Real.pi * 2))) ≤ 1 := Real.sin_le_one _
    have hsc : 1 ≤ Real.sin (foldAngle (jsMod rad (Real.pi * 2))) +
        Real.cos (foldAngle (jsMod rad (Real.pi * 2))) := by
      nlinarith [Real.sin_sq_add_cos_sq (foldAngle (jsMod rad (Real.pi * 2))),
        mul_nonneg hsin hcos]
    have hc1 := mul_le_mul_of_nonneg_right hwR hcos
    have hc2 := mul_le_mul_of_nonneg_right hhR hsin
    have hc3 := mul_le_mul_of_nonneg_right hwR hsin
    have hc4 := mul_le_mul_of_nonneg_right hhR hcos
    rw [one_mul] at hc1 hc2 hc3 hc4
    have hWpos : 0 < (t.canvas.width : ℝ) * Real.cos (foldAngle (jsMod rad (Real.pi * 2))) +
        (t.canvas.height : ℝ) * Real.cos (Real.pi / 2 - foldAngle (jsMod rad (Real.pi * 2))) := by
      rw [Real.cos_pi_div_two_sub]
      linarith
    have hHpos : 0 < (t.canvas.width : ℝ) * Real.sin (foldAngle (jsMod rad (Real.pi * 2))) +
        (t.canvas.height : ℝ) * Real.sin (Real.pi / 2 - foldAngle (jsMod rad (Real.pi * 2))) := by
      rw [Real.sin_pi_div_two_sub]
      linarith
    have hb1 := mul_le_mul_of_nonneg_left hcos1 hW0
    have hb2 := mul_le_mul_of_nonneg_left hsin1 hH0
    have hb3 := mul_le_mul_of_nonneg_left hsin1 hW0
    have hb4 := mul_le_mul_of_nonneg_left hcos1 hH0
    rw [mul_one] at hb1 hb2 hb3 hb4
    obtain ⟨c, hc, hcw, hch⟩ := rotate_ok_dims t.canvas rad hWpos hHpos
    rw [Real.cos_pi_div_two_sub] at hcw
    rw [Real.sin_pi_div_two_sub] at hch
    refine ⟨ha0, ha2, { t with canvas := c }, ?_, ?_, ?_⟩
    · unfold ImTool.rotate
      rw [hc]
    · show c.width = _
      rw [hcw]
      exact rdim_small _ (by rw [Real.cos_pi_div_two_sub] at hWpos; linarith) (by linarith)
    · show c.height = _
      rw [hch]
      exact rdim_small _ (by rw [Real.sin_pi_div_two_sub] at hHpos; linarith) (by linarith)
  refine ⟨hpart1, ?_, ?_⟩
  · obtain ⟨_, _, t0, h0, hw0, hh0⟩ := hpart1 0 le_rfl
    have hA : foldAngle (jsMod 0 (Real.pi * 2)) = 0 := by
      rw [jsMod_zero_left, foldAngle_zero]
    rw [hA, Real.cos_zero, Real.sin_zero] at hw0 hh0
    rw [show (t.canvas.width : ℝ) * 1 + (t.canvas.height : ℝ) * 0 =
        ((t.canvas.width : ℕ) : ℝ) from by ring, Nat.floor_natCast] at hw0
    rw [show (t.canvas.width : ℝ) * 0 + (t.canvas.height : ℝ) * 1 =
        ((t.canvas.height : ℕ) : ℝ) from by ring, Nat.floor_natCast] at hh0
    exact ⟨t0, h0, hw0, hh0⟩
  · have hcr : t.canvas.rotate (Real.pi * 2) = t.canvas.rotate 0 := by
      unfold Canvas.rotate
      rw [jsMod_self _ (by positivity), jsMod_zero_left]
      rw [show Real.cos (Real.pi * 2) = Real.cos 0 from by
          rw [mul_comm, Real.cos_two_pi, Real.cos_zero],
        show Real.sin (Real.pi * 2) = Real.sin 0 from by
          rw [mul_comm, Real.sin_two_pi, Real.sin_zero]]
    unfold ImTool.rotate
    rw [hcr]

theorem rotate_bounding_box_witness :
    0 < srcCanvas2.width ∧
    (∃ t0, ImTool.rotate (tool srcCanvas2) 0 = .ok t0 ∧
      t0.canvas.width = 2 ∧ t0.canvas.height = 2) ∧
    ImTool.rotate (tool srcCanvas2) (Real.pi * 2) = ImTool.rotate (tool srcCanvas2) 0 := by
  obtain ⟨_, h2, h3⟩ := rotate_bounding_box (tool srcCanvas2) (by decide) (by decide) (by decide)
  exact ⟨by decide, h2, h3⟩
